import Mathlib

/-!
# Verification of the nanotron distributed checkpointing engine

Shallow embedding of the checkpoint engine exercised by
`tests/test_serialize.py`.  The serialize implementation itself
(`nanotron.nn.serialize`, `nanotron.nn.random`, the optimizer classes and
`TensorMetadataV2`) is not part of the source tree; those components are
modelled from the specification (each such definition carries a
`Modelled from the spec:` doc comment).  The test file is the authority for
the scenarios (guards on empty containers, the number of optimizer steps,
the equality predicates used by the assertions).
-/

namespace Nanotron

/-! ## Definitions -/

/-! ## Basic data model -/

/-- A (dp, tp, pp) group-size triple.  Modelled from the spec:
"Process Topology Coordinate — a tuple (data-parallel rank, tensor-parallel
rank, pipeline-parallel rank) identifying a process within the 3D grid". -/
structure Topology where
  dp : Nat
  tp : Nat
  pp : Nat
deriving DecidableEq, Repr

/-- Tensor contents: the flattened sequence of raw machine words.  Equality of
two values is bit-identity of the stored tensors. -/
abbrev Value := List Nat

/-- A named state container: an insertion-ordered mapping from a stable string
key to a tensor value.  Modelled from the spec: "Named State Container — an
insertion-ordered mapping from string key to tensor-like value". -/
abbrev NSC := List (String × Value)

/-- The keys of a named state container, in insertion order. -/
def keysOf {α : Type} (d : List (String × α)) : List String :=
  d.map Prod.fst

/-- Structural dictionary equality, the predicate computed by the test
helper `is_dict_equal`: same key set and, for every key, bit-identical
values.  Modelled from the spec: "Two named state containers are defined to
be dict-equal when they have the same key set and, for every key,
bit-identical values". -/
def dictEqual {α : Type} [DecidableEq α] (a b : List (String × α)) : Bool :=
  (keysOf a).all (fun k => (keysOf b).contains k) &&
  (keysOf b).all (fun k => (keysOf a).contains k) &&
  (keysOf a).all (fun k => decide (a.lookup k = b.lookup k))

/-- Error kinds of the checkpoint engine.  Modelled from the spec, §7:
`TopologyMismatch` is fatal for the whole load and detected before any tensor
copy; `MissingKey` / `UnexpectedKey` fail a strict load; `ShapeMismatch` is a
per-tensor validation failure. -/
inductive LoadError where
  | topologyMismatch
  | missingKey
  | unexpectedKey
  | shapeMismatch
deriving DecidableEq, Repr

/-! ## Decimal rendering and parsing of naturals

The metadata codec stores every numeric field as a decimal string.  The
functions below are the numeric core of the codec; they use explicit fuel so
that every definition is structurally recursive and kernel-executable. -/

/-- Little-endian base-10 digit list of `n`, computed with `fuel` recursion
budget (`fuel ≥ n` suffices). -/
def toRevDigits : Nat → Nat → List Nat
  | 0, _ => []
  | fuel + 1, n => if n = 0 then [] else n % 10 :: toRevDigits fuel (n / 10)

/-- Value of a little-endian base-10 digit list. -/
def ofRevDigits : List Nat → Nat
  | [] => 0
  | d :: ds => d + 10 * ofRevDigits ds

/-- The character for one decimal digit. -/
def digitToChar (d : Nat) : Char :=
  Char.ofNat (48 + d)

/-- Inverse of `digitToChar` on characters `'0'`–`'9'`. -/
def charToDigit (c : Char) : Option Nat :=
  if 48 ≤ c.toNat ∧ c.toNat ≤ 57 then some (c.toNat - 48) else none

/-- Render a natural number as its decimal character sequence. -/
def natToStr (n : Nat) : List Char :=
  if n = 0 then ['0'] else ((toRevDigits n n).map digitToChar).reverse

/-- Map a character sequence to its digit values; `none` on a non-digit. -/
def charsToDigits : List Char → Option (List Nat)
  | [] => some []
  | c :: cs =>
    match charToDigit c, charsToDigits cs with
    | some d, some ds => some (d :: ds)
    | _, _ => none

/-- Parse a nonempty decimal character sequence back to a natural number. -/
def parseNat (s : List Char) : Option Nat :=
  match s with
  | [] => none
  | _ :: _ => (charsToDigits s).map (fun ds => ofRevDigits ds.reverse)

/-! ## Separator-joined string lists -/

/-- Join character sequences with a single separator character between
consecutive pieces. -/
def joinSep (c : Char) : List (List Char) → List Char
  | [] => []
  | [x] => x
  | x :: y :: ys => x ++ c :: joinSep c (y :: ys)

/-- Split a character sequence at every occurrence of the separator.  Always
returns at least one (possibly empty) piece. -/
def splitSep (c : Char) : List Char → List (List Char)
  | [] => [[]]
  | x :: xs =>
    match splitSep c xs with
    | [] => [[]]
    | h :: t => if x = c then [] :: h :: t else (x :: h) :: t

/-! ## Rendering a list of naturals as one comma-separated string -/

/-- Render a list of naturals as a comma-separated decimal string; the empty
list renders as the empty string. -/
def renderNats (l : List Nat) : List Char :=
  joinSep ',' (l.map natToStr)

/-- Parse every piece as a decimal natural. -/
def parsePieces : List (List Char) → Option (List Nat)
  | [] => some []
  | p :: ps =>
    match parseNat p, parsePieces ps with
    | some n, some ns => some (n :: ns)
    | _, _ => none

/-- Parse a comma-separated decimal string; the empty string parses to the
empty list. -/
def parseNats (s : List Char) : Option (List Nat) :=
  match s with
  | [] => some []
  | _ :: _ => parsePieces (splitSep ',' s)

/-! ## Sharding descriptor and tensor metadata -/

/-- Modelled from the spec: one element of `local_global_slices_pairs` — "a
(local-range, global-range) pair describing how this rank's local chunk maps
into the logical tensor"; each side is one `(start, stop)` slice per tensor
dimension. -/
structure SlicesPair where
  localSlices : List (Nat × Nat)
  globalSlices : List (Nat × Nat)
deriving DecidableEq, Repr

/-- Modelled from the spec: the checkpoint format version, "an integer format
tag, bumped on any incompatible layout change" (the test imports it from
`nanotron.nn.serialize.constants`). -/
def CHECKPOINT_VERSION : Nat := 2

/-- Modelled from the spec: "Tensor Metadata Record (versioned) — wraps a
Sharding Descriptor plus a `version` tag"; the fields mirror the constructor
call in `_test_serialize_deserialize_tensormetadata`. -/
structure TensorMetadataV2 where
  version : Nat
  localGlobalSlicesPairs : List SlicesPair
  unshardedShape : List Nat
deriving DecidableEq, Repr

/-- A dynamically-typed Python value as it appears in the encoded record;
the codec contract is that only the `str` constructor ever occurs. -/
inductive PyVal where
  | str : String → PyVal
  | int : Nat → PyVal
deriving DecidableEq, Repr

/-- Whether a dynamic value is a plain string. -/
def PyVal.isStr : PyVal → Bool
  | .str _ => true
  | .int _ => false

/-- Metadata decode failures.  Modelled from the spec, §4.1: "decoding a
record with an unrecognized version fails with a `VersionMismatch` kind;
decoding a malformed record ... fails with a `CorruptMetadata` kind". -/
inductive MetaError where
  | versionMismatch
  | corruptMetadata
deriving DecidableEq, Repr

/-! ### Numeric flattening of the descriptor -/

/-- Flatten a slice list to the sequence of its bounds. -/
def encodeSlices : List (Nat × Nat) → List Nat
  | [] => []
  | p :: ps => p.1 :: p.2 :: encodeSlices ps

/-- Read back `k` slices, returning them with the unconsumed remainder. -/
def decodeSlices : Nat → List Nat → Option (List (Nat × Nat) × List Nat)
  | 0, rest => some ([], rest)
  | k + 1, a :: b :: rest =>
    (decodeSlices k rest).map (fun r => ((a, b) :: r.1, r.2))
  | _ + 1, _ => none

/-- Flatten one slices pair, each side length-prefixed. -/
def encodePair (sp : SlicesPair) : List Nat :=
  sp.localSlices.length :: encodeSlices sp.localSlices ++
    sp.globalSlices.length :: encodeSlices sp.globalSlices

/-- Read back one slices pair, returning the unconsumed remainder. -/
def decodePair (xs : List Nat) : Option (SlicesPair × List Nat) :=
  match xs with
  | [] => none
  | n :: rest =>
    match decodeSlices n rest with
    | none => none
    | some (ls, rest2) =>
      match rest2 with
      | [] => none
      | m :: rest3 =>
        match decodeSlices m rest3 with
        | none => none
        | some (gs, rest4) => some (⟨ls, gs⟩, rest4)

/-- Flatten a list of slices pairs. -/
def encodePairs : List SlicesPair → List Nat
  | [] => []
  | sp :: sps => encodePair sp ++ encodePairs sps

/-- Read back `k` slices pairs, returning the unconsumed remainder. -/
def decodePairs : Nat → List Nat → Option (List SlicesPair × List Nat)
  | 0, rest => some ([], rest)
  | k + 1, xs =>
    match decodePair xs with
    | none => none
    | some (sp, rest) => (decodePairs k rest).map (fun r => (sp :: r.1, r.2))

/-- Length-prefixed flattening of the full pair list. -/
def flattenPairs (l : List SlicesPair) : List Nat :=
  l.length :: encodePairs l

/-- Inverse of `flattenPairs`; rejects trailing garbage. -/
def unflattenPairs (xs : List Nat) : Option (List SlicesPair) :=
  match xs with
  | [] => none
  | n :: rest =>
    match decodePairs n rest with
    | some (l, []) => some l
    | _ => none

/-! ## The string-keyed metadata codec -/

/-- Modelled from the spec: `encode(Descriptor, version) -> Record` must
"produce a flat mapping from short string keys to string values"; the record
keys mirror the constructor arguments of `TensorMetadataV2` used by the
test. -/
def TensorMetadataV2.toStrDict (m : TensorMetadataV2) : List (String × PyVal) :=
  [("version", PyVal.str (String.mk (natToStr m.version))),
   ("local_global_slices_pairs",
     PyVal.str (String.mk (renderNats (flattenPairs m.localGlobalSlicesPairs)))),
   ("unsharded_shape", PyVal.str (String.mk (renderNats m.unshardedShape)))]

/-- Look up a key in the record and return its payload only when the stored
value is a plain string (a malformed value reads as a missing key). -/
def findStr (k : String) : List (String × PyVal) → Option String
  | [] => none
  | (k2, v) :: rest =>
    if k = k2 then
      match v with
      | PyVal.str s => some s
      | PyVal.int _ => none
    else findStr k rest

/-- Modelled from the spec: `decode(Record) -> Descriptor`; "decoding a record
with an unrecognized version fails with a `VersionMismatch` kind; decoding a
malformed record (missing required key, non-numeric where numeric expected)
fails with a `CorruptMetadata` kind". -/
def TensorMetadataV2.fromStrDict (d : List (String × PyVal)) :
    Except MetaError TensorMetadataV2 :=
  match findStr "version" d with
  | none => Except.error MetaError.corruptMetadata
  | some vs =>
    match parseNat vs.data with
    | none => Except.error MetaError.corruptMetadata
    | some v =>
      if v = CHECKPOINT_VERSION then
        match findStr "local_global_slices_pairs" d with
        | none => Except.error MetaError.corruptMetadata
        | some ps =>
          match parseNats ps.data with
          | none => Except.error MetaError.corruptMetadata
          | some flat =>
            match unflattenPairs flat with
            | none => Except.error MetaError.corruptMetadata
            | some pairs =>
              match findStr "unsharded_shape" d with
              | none => Except.error MetaError.corruptMetadata
              | some ss =>
                match parseNats ss.data with
                | none => Except.error MetaError.corruptMetadata
                | some shape => Except.ok ⟨v, pairs, shape⟩
      else Except.error MetaError.versionMismatch

/-! ## Weight checkpoints (save_weights / load_weights) -/

/-- The shape signature of a container: every key paired with the flattened
length of its tensor.  Two models built from the same configuration share
this signature even when their (randomly initialised) values differ. -/
def shapesOf (d : NSC) : List (String × Nat) :=
  d.map (fun kv => (kv.1, kv.2.length))

/-- Modelled from the spec: the durable per-rank unit written by the
Checkpoint Writer — "one addressable unit per (topology coordinate, tensor
key): raw tensor bytes + a metadata sidecar", tagged with the (dp, tp, pp)
group sizes of the saving run so that a topology change is detectable. -/
structure RankCheckpoint where
  topology : Topology
  tensors : NSC
deriving DecidableEq, Repr

/-- Modelled from the spec: `save_weights` — "the Writer walks each named
tensor ... and writes tensor bytes plus metadata to per-rank storage".  The
live model is read, never written. -/
def saveWeights (topo : Topology) (s : NSC) : RankCheckpoint :=
  ⟨topo, s⟩

/-- Modelled from the spec: `load_weights` — "Load is the mirror: the Reader
locates the file matching the current rank's topology coordinates, decodes
metadata, validates it against the tensor's expected (re-)sharding, and
copies bytes into the destination tensor in place".  Topology-level errors
"are checked up front and short-circuit before any I/O"; the strict-mode
default fails the whole load on a missing or unexpected key; a per-tensor
shape disagreement is a `ShapeMismatch`. -/
def loadWeights (ck : RankCheckpoint) (topo : Topology) (dest : NSC) :
    Except LoadError NSC :=
  if ck.topology ≠ topo then Except.error LoadError.topologyMismatch
  else if ¬ ((keysOf ck.tensors).all (fun k => (keysOf dest).contains k)) then
    Except.error LoadError.unexpectedKey
  else
    dest.mapM (fun kv =>
      match ck.tensors.lookup kv.1 with
      | none => Except.error LoadError.missingKey
      | some v =>
        if v.length = kv.2.length then Except.ok (kv.1, v)
        else Except.error LoadError.shapeMismatch)

/-! ## The dummy model of the test harness -/

/-- Modelled from the spec (the helper `init_dummy_model` lives outside the
source tree): initialising a model draws each parameter's value from the
ambient random generator, a pure function of the generator state `seed` and
the parameter's position.  Two initialisations performed at different
generator states produce different values for every parameter. -/
def drawValue (seed i : Nat) : Value :=
  [seed + 31 * i]

/-- Parameter-by-parameter initialisation, threading the parameter index. -/
def initFrom (seed : Nat) : Nat → List String → NSC
  | _, [] => []
  | i, n :: ns => (n, drawValue seed i) :: initFrom seed (i + 1) ns

/-- Modelled from the spec: `init_dummy_model` — build the named state
container of a freshly initialised dummy model from the generator state
`seed`. -/
def initDummyModel (names : List String) (seed : Nat) : NSC :=
  initFrom seed 0 names

/-! ## Optimizers -/

/-- The per-parameter slot record of the AdamW optimizer: a step counter and
the two moment buffers.  The numeric content of an update is abstracted (the
claims only concern serialization, which is value-agnostic). -/
structure AdamState where
  step : Nat
  expAvg : Value
  expAvgSq : Value
deriving DecidableEq, Repr

/-- The `state` sub-dict of an optimizer's state dict. -/
abbrev OptState := List (String × AdamState)

/-- Modelled from the spec: the observable state dict of a `NamedOptimizer` —
a per-parameter `state` sub-dict plus the stable parameter names. -/
structure OptStateDict where
  state : OptState
  paramNames : List String
deriving DecidableEq, Repr

/-- A freshly built optimizer: no per-parameter state yet. -/
def freshOptimizer (names : List String) : OptStateDict :=
  ⟨[], names⟩

/-- One AdamW slot update; on the first step the slot is created. -/
def adamAdvance (prev : Option AdamState) (g : Value) : AdamState :=
  match prev with
  | none => { step := 1, expAvg := g, expAvgSq := g.map (fun x => x * x) }
  | some st =>
      { step := st.step + 1,
        expAvg := List.zipWith (fun m x => m + x) st.expAvg g,
        expAvgSq := List.zipWith (fun v x => v + x * x) st.expAvgSq g }

/-- Modelled from the spec: one `optimizer.step()` — every parameter's slot is
advanced with its gradient; the parameter names are unchanged. -/
def optStep (grads : String → Value) (o : OptStateDict) : OptStateDict :=
  ⟨o.paramNames.map (fun n => (n, adamAdvance (o.state.lookup n) (grads n))),
   o.paramNames⟩

/-- `is_dict_equal` on two optimizer state dicts: the `state` sub-dicts are
dict-equal and the parameter-name lists agree. -/
def optDictEqual (a b : OptStateDict) : Bool :=
  dictEqual a.state b.state && decide (a.paramNames = b.paramNames)

/-- Modelled from the spec: the per-rank optimizer checkpoint written by
`save_optimizer` — the owned slots plus the addressing information. -/
structure OptCheckpoint where
  topology : Topology
  state : OptState
  paramNames : List String
deriving DecidableEq, Repr

/-- Modelled from the spec: `save_optimizer` writes the rank's slots. -/
def saveOptimizer (topo : Topology) (o : OptStateDict) : OptCheckpoint :=
  ⟨topo, o.state, o.paramNames⟩

/-- Modelled from the spec: `load_optimizer` — topology is validated up
front, the key set must match the destination optimizer's parameters
(strict mode), then the slots replace the destination's state wholesale. -/
def loadOptimizer (ck : OptCheckpoint) (topo : Topology) (dest : OptStateDict) :
    Except LoadError OptStateDict :=
  if ck.topology ≠ topo then Except.error LoadError.topologyMismatch
  else if ck.paramNames ≠ dest.paramNames then Except.error LoadError.missingKey
  else Except.ok ⟨ck.state, dest.paramNames⟩

/-- Modelled from the spec, §4.4: the deterministic round-robin partition of
parameters across the data-parallel ranks used by the ZeRO translator —
"partition assignment is a pure function of (parameter name, tensor size, dp
group size)". -/
def zeroShardNames (dpSize r : Nat) (names : List String) : List String :=
  (names.enum.filter (fun p => p.1 % dpSize == r)).map Prod.snd

/-! ## The gradient-accumulator optimizer wrapper -/

/-- Modelled from the spec: the `FP32GradientAccumulator`'s internal state —
one full-precision buffer per parameter ("gradient-accumulator auxiliary
buffers"). -/
structure FP32GradAccumState where
  parameters : List (String × Value)
deriving DecidableEq, Repr

/-- Modelled from the spec: `OptimizerFromGradientAccumulator` — a base
optimizer together with the gradient accumulator that contributes extra
state-dict keys. -/
structure AccumOptimizer where
  base : OptStateDict
  gradientAccumulator : FP32GradAccumState
deriving DecidableEq, Repr

/-- Modelled from the spec: `state_dict_additional_keys()` of the wrapper —
"a set of additional top-level keys contributed by wrapping components
(e.g., a gradient-accumulator's extra per-parameter buffers)". -/
def stateDictAdditionalKeys (_o : AccumOptimizer) : List String :=
  ["gradient_accumulator"]

/-- A dynamically-typed value of the full optimizer state dict. -/
inductive SDVal where
  | tensors : List (String × Value) → SDVal
  | optState : OptState → SDVal
  | names : List String → SDVal
deriving DecidableEq, Repr

/-- The full observable `state_dict()` of the wrapped optimizer: the primary
`state` sub-dict, the parameter names, and the additional
`gradient_accumulator` key. -/
def fullStateDict (o : AccumOptimizer) : List (String × SDVal) :=
  [("state", SDVal.optState o.base.state),
   ("names", SDVal.names o.base.paramNames),
   ("gradient_accumulator", SDVal.tensors o.gradientAccumulator.parameters)]

/-- Modelled from the spec: one training step of the wrapped optimizer — the
base optimizer advances and the accumulator refreshes its per-parameter
full-precision buffers. -/
def accumStep (grads : String → Value) (o : AccumOptimizer) : AccumOptimizer :=
  ⟨optStep grads o.base,
   ⟨o.base.paramNames.map (fun n =>
      (n, match o.gradientAccumulator.parameters.lookup n with
          | some buf => List.zipWith (fun b x => b + x) buf (grads n)
          | none => grads n))⟩⟩

/-- Modelled from the spec: the optimizer checkpoint written by
`save_optimizer` for a wrapper with additional keys — "Optimizer checkpoint
reuses the same per-tensor addressing scheme ... and for each additional key
contributed by a wrapping component". -/
structure AccumOptCheckpoint where
  topology : Topology
  state : OptState
  paramNames : List String
  accumParameters : List (String × Value)
deriving DecidableEq, Repr

/-- `save_optimizer` on the wrapped optimizer: primary slots plus the
additional-key buffers. -/
def saveAccumOptimizer (topo : Topology) (o : AccumOptimizer) : AccumOptCheckpoint :=
  ⟨topo, o.base.state, o.base.paramNames, o.gradientAccumulator.parameters⟩

/-- `load_optimizer` on the wrapped optimizer: topology first, then the key
sets, then both the primary state and the accumulator buffers are restored.
Modelled from the spec: "the set of additional keys is fixed for a given
optimizer-wrapper configuration and must be identical between save and load,
or reconstruction fails". -/
def loadAccumOptimizer (ck : AccumOptCheckpoint) (topo : Topology)
    (dest : AccumOptimizer) : Except LoadError AccumOptimizer :=
  if ck.topology ≠ topo then Except.error LoadError.topologyMismatch
  else if ck.paramNames ≠ dest.base.paramNames then Except.error LoadError.missingKey
  else Except.ok ⟨⟨ck.state, dest.base.paramNames⟩, ⟨ck.accumParameters⟩⟩

/-! ## Random states -/

/-- Modelled from the spec: "Random State — opaque generator state"; equality
is value equality of the underlying generator state bytes. -/
structure RandomState where
  bytes : List Nat
deriving DecidableEq, Repr

/-- Modelled from the spec: "A name-keyed collection of RandomState objects
... is what gets saved/loaded as a unit" (`RandomStates`). -/
abbrev RandomStates := List (String × RandomState)

/-- The reference rank of a process group: "the lowest rank in the group by
convention". -/
def referenceRank : List Nat → Nat
  | [] => 0
  | r :: rs => rs.foldl Nat.min r

/-- Modelled from the spec: `get_synced_random_state` — "broadcasts the
reference rank's (lowest rank in the group by convention) state to all
members and returns the now-identical state for every member".  `current`
maps each rank to its own generator state; the caller's own rank does not
influence the result. -/
def getSyncedRandomState (current : Nat → RandomState) (group : List Nat)
    (_caller : Nat) : RandomState :=
  current (referenceRank group)

/-- The collection built by `_test_save_and_load_random_states` on rank `r`:
one synced state and one rank-local state. -/
def testRandomStatesFor (current : Nat → RandomState) (group : List Nat)
    (r : Nat) : RandomStates :=
  [("my_synced_random_state", getSyncedRandomState current group r),
   ("my_own_random_state", current r)]

/-- Modelled from the spec: the random-state checkpoint — "a separate
named-state file per rank for random states". -/
structure RandomStatesCheckpoint where
  topology : Topology
  files : List (Nat × RandomStates)
deriving DecidableEq, Repr

/-- Modelled from the spec: `save_random_states` — "on save, every rank
writes its own name-keyed collection independently". -/
def saveRandomStates (topo : Topology) (ranks : List Nat)
    (byRank : Nat → RandomStates) : RandomStatesCheckpoint :=
  ⟨topo, ranks.map (fun r => (r, byRank r))⟩

/-- Modelled from the spec: `load_random_states` — "on load, each rank reads
exactly its own file"; topology is validated up front. -/
def loadRandomStates (ck : RandomStatesCheckpoint) (topo : Topology) (r : Nat) :
    Except LoadError RandomStates :=
  if ck.topology ≠ topo then Except.error LoadError.topologyMismatch
  else
    match ck.files.lookup r with
    | some rs => Except.ok rs
    | none => Except.error LoadError.missingKey

/-! ## The save/load scenario as a state-passing program

`_test_save_and_load_model` / `_test_save_and_load_optimizer` mutate a world
consisting of the live containers and the on-disk checkpoint.  Modelling the
test's sequence as explicit state passing makes the frame effect of
`save_weights` / `save_optimizer` (the live source container is only read)
a provable statement rather than an implicit convention. -/

/-- The mutable state of the round-trip tests: the original model and
optimizer, the freshly built copies the checkpoint is loaded into, and the
on-disk store. -/
structure TrainWorld where
  model : NSC
  newModel : NSC
  optimizer : OptStateDict
  newOptimizer : OptStateDict
  weightsDisk : Option RankCheckpoint
  optimDisk : Option OptCheckpoint
deriving DecidableEq, Repr

/-- `save_weights` followed by `save_optimizer`: the disk gains the two
checkpoints; every live container field is passed through. -/
def saveStep (topo : Topology) (w : TrainWorld) : TrainWorld :=
  { w with
    weightsDisk := some (saveWeights topo w.model),
    optimDisk := some (saveOptimizer topo w.optimizer) }

/-- `load_weights(new_model)` followed by `load_optimizer(new_optimizer)`:
only the destination containers are written; a failed load leaves the
destination as it was. -/
def loadStep (topo : Topology) (w : TrainWorld) : TrainWorld :=
  { w with
    newModel :=
      match w.weightsDisk with
      | some ck =>
        match loadWeights ck topo w.newModel with
        | Except.ok m => m
        | Except.error _ => w.newModel
      | none => w.newModel,
    newOptimizer :=
      match w.optimDisk with
      | some ck =>
        match loadOptimizer ck topo w.newOptimizer with
        | Except.ok o => o
        | Except.error _ => w.newOptimizer
      | none => w.newOptimizer }

/-! ## The pre-load sanity guards of the tests -/

/-- The guard at `test_serialize.py:70`: the "newly initialised model should
not match" assertion is skipped exactly when the saved model's state dict has
zero entries. -/
def skipModelFreshnessGuard (saved : NSC) : Bool :=
  saved.length == 0

/-- The guard at `test_serialize.py:130`: the "newly initialised optimizer
should not match" assertion is skipped exactly when the saved optimizer's
`state` sub-dict has zero entries. -/
def skipOptimFreshnessGuard (saved : OptStateDict) : Bool :=
  saved.state.length == 0

/-! ## Theorems -/

theorem ofRevDigits_toRevDigits (fuel n : Nat) (h : n ≤ fuel) :
    ofRevDigits (toRevDigits fuel n) = n := by
  induction fuel generalizing n with
  | zero =>
    interval_cases n
    simp [toRevDigits, ofRevDigits]
  | succ fuel ih =>
    by_cases hn : n = 0
    · simp [toRevDigits, ofRevDigits, hn]
    · have hdiv : n / 10 ≤ fuel := by
        have h1 : n / 10 < n := Nat.div_lt_self (Nat.pos_of_ne_zero hn) (by omega)
        omega
      simp only [toRevDigits, if_neg hn, ofRevDigits, ih (n / 10) hdiv]
      omega

theorem toRevDigits_lt (fuel n : Nat) :
    ∀ d ∈ toRevDigits fuel n, d < 10 := by
  induction fuel generalizing n with
  | zero => simp [toRevDigits]
  | succ fuel ih =>
    intro d hd
    by_cases hn : n = 0
    · simp [toRevDigits, hn] at hd
    · simp only [toRevDigits, if_neg hn, List.mem_cons] at hd
      rcases hd with h | h
      · subst h
        omega
      · exact ih (n / 10) d h

theorem charToDigit_digitToChar : ∀ d < 10, charToDigit (digitToChar d) = some d := by
  decide

theorem digitToChar_ne_comma : ∀ d < 10, digitToChar d ≠ ',' := by
  decide

theorem digitToChar_ne_colon : ∀ d < 10, digitToChar d ≠ ':' := by
  decide

theorem charsToDigits_map_digitToChar (l : List Nat) (h : ∀ d ∈ l, d < 10) :
    charsToDigits (l.map digitToChar) = some l := by
  induction l with
  | nil => rfl
  | cons d ds ih =>
    have hd : d < 10 := h d (List.mem_cons_self d ds)
    have hds : ∀ x ∈ ds, x < 10 := fun x hx => h x (List.mem_cons_of_mem d hx)
    simp [charsToDigits, charToDigit_digitToChar d hd, ih hds]

theorem natToStr_ne_nil (n : Nat) : natToStr n ≠ [] := by
  by_cases hn : n = 0
  · subst hn; decide
  · have hne : toRevDigits n n ≠ [] := by
      cases hfuel : n with
      | zero => exact absurd hfuel hn
      | succ m => simp [toRevDigits, hn, ← hfuel]
    simp only [natToStr, if_neg hn]
    intro hcontra
    apply hne
    rw [List.reverse_eq_nil_iff, List.map_eq_nil_iff] at hcontra
    exact hcontra

theorem parseNat_natToStr (n : Nat) : parseNat (natToStr n) = some n := by
  by_cases hn : n = 0
  · subst hn
    decide
  · have hlt : ∀ d ∈ (toRevDigits n n).reverse, d < 10 := by
      intro d hd
      exact toRevDigits_lt n n d (List.mem_reverse.mp hd)
    have hs : natToStr n = ((toRevDigits n n).reverse).map digitToChar := by
      simp [natToStr, if_neg hn, List.map_reverse]
    have hcd : charsToDigits (natToStr n) = some ((toRevDigits n n).reverse) := by
      rw [hs]
      exact charsToDigits_map_digitToChar _ hlt
    cases hcase : natToStr n with
    | nil => exact absurd hcase (natToStr_ne_nil n)
    | cons c cs =>
      rw [hcase] at hcd
      simp only [parseNat, hcd, Option.map_some']
      simp [List.reverse_reverse, ofRevDigits_toRevDigits n n (Nat.le_refl n)]

theorem natToStr_no_comma (n : Nat) : ',' ∉ natToStr n := by
  by_cases hn : n = 0
  · subst hn; decide
  · simp only [natToStr, if_neg hn, List.mem_reverse, List.mem_map]
    rintro ⟨d, hd, hchar⟩
    exact digitToChar_ne_comma d (toRevDigits_lt n n d hd) hchar

theorem splitSep_ne_nil (c : Char) (s : List Char) : splitSep c s ≠ [] := by
  cases s with
  | nil => simp [splitSep]
  | cons x xs =>
    simp only [splitSep]
    cases splitSep c xs with
    | nil => simp
    | cons h t =>
      by_cases hx : x = c <;> simp [hx]

theorem splitSep_no_sep (c : Char) (s : List Char) (h : c ∉ s) :
    splitSep c s = [s] := by
  induction s with
  | nil => rfl
  | cons x xs ih =>
    have hx : x ≠ c := fun hcontra => h (hcontra ▸ List.mem_cons_self x xs)
    have hxs : c ∉ xs := fun hcontra => h (List.mem_cons_of_mem x hcontra)
    simp only [splitSep, ih hxs]
    simp [hx]

theorem splitSep_append (c : Char) (s t : List Char) (h : c ∉ s) :
    splitSep c (s ++ c :: t) = s :: splitSep c t := by
  induction s with
  | nil =>
    simp only [List.nil_append, splitSep]
    cases hsplit : splitSep c t with
    | nil => exact absurd hsplit (splitSep_ne_nil c t)
    | cons ht tt => simp
  | cons x xs ih =>
    have hx : x ≠ c := fun hcontra => h (hcontra ▸ List.mem_cons_self x xs)
    have hxs : c ∉ xs := fun hcontra => h (List.mem_cons_of_mem x hcontra)
    simp only [List.cons_append, splitSep, List.append_eq]
    rw [ih hxs]
    simp [hx]

theorem splitSep_joinSep (c : Char) (pieces : List (List Char))
    (hne : pieces ≠ []) (h : ∀ p ∈ pieces, c ∉ p) :
    splitSep c (joinSep c pieces) = pieces := by
  induction pieces with
  | nil => exact absurd rfl hne
  | cons x xs ih =>
    cases xs with
    | nil =>
      simp only [joinSep]
      exact splitSep_no_sep c x (h x (List.mem_cons_self x []))
    | cons y ys =>
      have hx : c ∉ x := h x (List.mem_cons_self x (y :: ys))
      have hrest : ∀ p ∈ y :: ys, c ∉ p := fun p hp => h p (List.mem_cons_of_mem x hp)
      simp only [joinSep, splitSep_append c x _ hx]
      rw [ih (by simp) hrest]

theorem parsePieces_map_natToStr (l : List Nat) :
    parsePieces (l.map natToStr) = some l := by
  induction l with
  | nil => rfl
  | cons n ns ih => simp [parsePieces, parseNat_natToStr n, ih]

theorem renderNats_ne_nil (l : List Nat) (h : l ≠ []) : renderNats l ≠ [] := by
  cases l with
  | nil => exact absurd rfl h
  | cons n ns =>
    cases ns with
    | nil =>
      simpa [renderNats, joinSep] using natToStr_ne_nil n
    | cons m ms =>
      simp only [renderNats, List.map_cons, joinSep]
      intro hcontra
      have := congrArg List.length hcontra
      simp at this

theorem parseNats_renderNats (l : List Nat) :
    parseNats (renderNats l) = some l := by
  cases l with
  | nil => rfl
  | cons n ns =>
    have hne : renderNats (n :: ns) ≠ [] := renderNats_ne_nil _ (by simp)
    have hsplit : splitSep ',' (renderNats (n :: ns)) = (n :: ns).map natToStr := by
      apply splitSep_joinSep
      · simp
      · intro p hp
        rcases List.mem_map.mp hp with ⟨m, _, hm⟩
        exact hm ▸ natToStr_no_comma m
    cases hcase : renderNats (n :: ns) with
    | nil => exact absurd hcase hne
    | cons c cs =>
      rw [hcase] at hsplit
      simp only [parseNats, hsplit]
      exact parsePieces_map_natToStr (n :: ns)

theorem decodeSlices_encodeSlices (l : List (Nat × Nat)) (t : List Nat) :
    decodeSlices l.length (encodeSlices l ++ t) = some (l, t) := by
  induction l with
  | nil => rfl
  | cons p ps ih =>
    cases p with
    | mk a b => simp [encodeSlices, decodeSlices, ih]

theorem decodePair_encodePair (sp : SlicesPair) (t : List Nat) :
    decodePair (encodePair sp ++ t) = some (sp, t) := by
  cases sp with
  | mk ls gs =>
    have hassoc :
        (encodeSlices ls ++ gs.length :: encodeSlices gs) ++ t
          = encodeSlices ls ++ (gs.length :: (encodeSlices gs ++ t)) := by
      simp [List.append_assoc]
    simp only [encodePair, List.cons_append, decodePair, hassoc,
      decodeSlices_encodeSlices]

theorem decodePairs_encodePairs (l : List SlicesPair) (t : List Nat) :
    decodePairs l.length (encodePairs l ++ t) = some (l, t) := by
  induction l generalizing t with
  | nil => rfl
  | cons sp sps ih =>
    simp only [encodePairs, List.length_cons, List.append_assoc, decodePairs,
      decodePair_encodePair, ih]
    rfl

theorem unflattenPairs_flattenPairs (l : List SlicesPair) :
    unflattenPairs (flattenPairs l) = some l := by
  have h := decodePairs_encodePairs l []
  rw [List.append_nil] at h
  simp [flattenPairs, unflattenPairs, h]

theorem findStr_toStrDict_version (m : TensorMetadataV2) :
    findStr "version" m.toStrDict = some (String.mk (natToStr m.version)) := by
  simp [TensorMetadataV2.toStrDict, findStr]

theorem findStr_toStrDict_pairs (m : TensorMetadataV2) :
    findStr "local_global_slices_pairs" m.toStrDict
      = some (String.mk (renderNats (flattenPairs m.localGlobalSlicesPairs))) := by
  simp [TensorMetadataV2.toStrDict, findStr]

theorem findStr_toStrDict_shape (m : TensorMetadataV2) :
    findStr "unsharded_shape" m.toStrDict
      = some (String.mk (renderNats m.unshardedShape)) := by
  simp [TensorMetadataV2.toStrDict, findStr]

theorem fromStrDict_toStrDict (m : TensorMetadataV2)
    (h : m.version = CHECKPOINT_VERSION) :
    TensorMetadataV2.fromStrDict m.toStrDict = Except.ok m := by
  cases m with
  | mk v pairs shape =>
    simp only at h
    simp only [TensorMetadataV2.fromStrDict,
      findStr_toStrDict_version, findStr_toStrDict_pairs, findStr_toStrDict_shape]
    rw [parseNat_natToStr v]
    simp only [if_pos h]
    rw [parseNats_renderNats]
    simp only [unflattenPairs_flattenPairs]
    rw [parseNats_renderNats]

theorem keysOf_shapesOf (d : NSC) : keysOf (shapesOf d) = keysOf d := by
  simp [keysOf, shapesOf]

theorem lookup_self {α : Type} (s : List (String × α)) (h : (keysOf s).Nodup)
    (k : String) (v : α) (hmem : (k, v) ∈ s) : s.lookup k = some v := by
  induction s with
  | nil => simp at hmem
  | cons kv rest ih =>
    cases kv with
    | mk k1 v1 =>
      simp only [keysOf, List.map_cons, List.nodup_cons] at h
      rcases List.mem_cons.mp hmem with hhead | htail
      · cases hhead
        simp [List.lookup]
      · have hk : k ≠ k1 := by
          intro hcontra
          apply h.1
          subst hcontra
          exact List.mem_map.mpr ⟨(k, v), htail, rfl⟩
        have h2 : (keysOf rest).Nodup := h.2
        simp only [List.lookup, show (k == k1) = false from beq_eq_false_iff_ne.mpr hk]
        exact ih h2 htail

theorem mapM_copy (full : NSC) (hnodup : (keysOf full).Nodup) :
    ∀ dest sub : NSC, shapesOf dest = shapesOf sub → (∀ x ∈ sub, x ∈ full) →
      (dest.mapM (fun kv =>
        match full.lookup kv.1 with
        | none => Except.error LoadError.missingKey
        | some v =>
          if v.length = kv.2.length then Except.ok (kv.1, v)
          else Except.error LoadError.shapeMismatch)
        : Except LoadError NSC) = Except.ok sub := by
  intro dest
  induction dest with
  | nil =>
    intro sub hshapes _
    have : sub = [] := by
      cases sub with
      | nil => rfl
      | cons x xs => simp [shapesOf] at hshapes
    subst this
    rfl
  | cons kv rest ih =>
    intro sub hshapes hsub
    cases sub with
    | nil => simp [shapesOf] at hshapes
    | cons kv2 sub2 =>
      cases kv with
      | mk k w =>
        cases kv2 with
        | mk k2 v =>
          simp only [shapesOf, List.map_cons, List.cons.injEq, Prod.mk.injEq] at hshapes
          obtain ⟨⟨hkeq, hleneq⟩, hrest⟩ := hshapes
          subst hkeq
          have hlook : full.lookup k = some v :=
            lookup_self full hnodup k v (hsub (k, v) (List.mem_cons_self _ _))
          have hsub2 : ∀ x ∈ sub2, x ∈ full := fun x hx =>
            hsub x (List.mem_cons_of_mem _ hx)
          simp only [List.mapM_cons, hlook, hleneq, if_pos rfl,
            ih sub2 hrest hsub2]
          rfl

/-- Membership follows from the key lists being equal as lists. -/
theorem contains_of_keys_eq (a b : NSC) (h : keysOf a = keysOf b) :
    ((keysOf b).all (fun k => (keysOf a).contains k)) = true := by
  rw [List.all_eq_true]
  intro k hk
  rw [h]
  exact List.elem_eq_true_of_mem hk

theorem dictEqual_refl {α : Type} [DecidableEq α] (a : List (String × α)) :
    dictEqual a a = true := by
  simp only [dictEqual, Bool.and_eq_true, List.all_eq_true]
  refine ⟨⟨fun k hk => List.elem_eq_true_of_mem hk, fun k hk => List.elem_eq_true_of_mem hk⟩, ?_⟩
  intro k _
  simp

/-- Round trip of the weight checkpoint: saving a container `s` and loading
it into a freshly initialised destination of the same configuration (same
keys, same shapes) restores exactly `s`. -/
theorem loadWeights_saveWeights (topo : Topology) (s dest : NSC)
    (hshapes : shapesOf dest = shapesOf s) (hnodup : (keysOf s).Nodup) :
    loadWeights (saveWeights topo s) topo dest = Except.ok s := by
  have hkeys : keysOf dest = keysOf s := by
    rw [← keysOf_shapesOf dest, ← keysOf_shapesOf s, hshapes]
  have hcont := contains_of_keys_eq dest s hkeys
  unfold loadWeights saveWeights
  rw [if_neg (by simp)]
  rw [if_neg (fun hcon => hcon hcont)]
  exact mapM_copy s hnodup dest s hshapes (fun x hx => hx)

theorem keysOf_initFrom (seed : Nat) (names : List String) :
    ∀ i, keysOf (initFrom seed i names) = names := by
  induction names with
  | nil => intro i; rfl
  | cons n ns ih =>
    intro i
    simp [initFrom, keysOf] at ih ⊢
    exact ih (i + 1)

theorem shapesOf_initFrom (s1 s2 : Nat) (names : List String) :
    ∀ i j, shapesOf (initFrom s1 i names) = shapesOf (initFrom s2 j names) := by
  induction names with
  | nil => intro i j; rfl
  | cons n ns ih =>
    intro i j
    have h := ih (i + 1) (j + 1)
    simp only [initFrom, shapesOf, List.map_cons, drawValue] at h ⊢
    simp [h]

theorem optStep_paramNames (grads : String → Value) (o : OptStateDict) :
    (optStep grads o).paramNames = o.paramNames := rfl

theorem iterate_optStep_paramNames (grads : String → Value) (o : OptStateDict) :
    ∀ n, ((optStep grads)^[n] o).paramNames = o.paramNames := by
  intro n
  induction n with
  | zero => rfl
  | succ n ih =>
    rw [Function.iterate_succ_apply', optStep_paramNames, ih]

/-- Round trip of the optimizer checkpoint into a freshly built optimizer of
the same kind. -/
theorem loadOptimizer_saveOptimizer (topo : Topology) (o : OptStateDict)
    (dest : OptStateDict) (hnames : dest.paramNames = o.paramNames) :
    loadOptimizer (saveOptimizer topo o) topo dest = Except.ok o := by
  unfold loadOptimizer saveOptimizer
  rw [if_neg (by simp)]
  rw [if_neg (by simp [hnames])]
  rw [hnames]

theorem accumStep_paramNames (grads : String → Value) (o : AccumOptimizer) :
    (accumStep grads o).base.paramNames = o.base.paramNames := rfl

theorem iterate_accumStep_paramNames (grads : String → Value) (o : AccumOptimizer) :
    ∀ n, ((accumStep grads)^[n] o).base.paramNames = o.base.paramNames := by
  intro n
  induction n with
  | zero => rfl
  | succ n ih =>
    rw [Function.iterate_succ_apply', accumStep_paramNames, ih]

theorem loadAccumOptimizer_saveAccumOptimizer (topo : Topology)
    (o dest : AccumOptimizer) (hnames : dest.base.paramNames = o.base.paramNames) :
    loadAccumOptimizer (saveAccumOptimizer topo o) topo dest = Except.ok o := by
  unfold loadAccumOptimizer saveAccumOptimizer
  rw [if_neg (by simp)]
  rw [if_neg (by simp [hnames])]
  rw [hnames]

theorem lookup_map_self (ranks : List Nat) (f : Nat → RandomStates) (r : Nat)
    (hr : r ∈ ranks) :
    (ranks.map (fun q => (q, f q))).lookup r = some (f r) := by
  induction ranks with
  | nil => simp at hr
  | cons x xs ih =>
    by_cases hx : r = x
    · subst hx
      simp [List.lookup]
    · have hmem : r ∈ xs := by
        rcases List.mem_cons.mp hr with h | h
        · exact absurd h hx
        · exact h
      simp only [List.map_cons, List.lookup,
        show (r == x) = false from beq_eq_false_iff_ne.mpr hx]
      exact ih hmem

theorem loadRandomStates_saveRandomStates (topo : Topology) (ranks : List Nat)
    (byRank : Nat → RandomStates) (r : Nat) (hr : r ∈ ranks) :
    loadRandomStates (saveRandomStates topo ranks byRank) topo r
      = Except.ok (byRank r) := by
  unfold loadRandomStates saveRandomStates
  rw [if_neg (by simp)]
  simp only [lookup_map_self ranks byRank r hr]

/-! ## Shared equality helpers -/

theorem optDictEqual_refl (o : OptStateDict) : optDictEqual o o = true := by
  simp [optDictEqual, dictEqual_refl]

theorem keysOf_map_pair {β : Type} (l : List String) (f : String → β) :
    keysOf (l.map (fun n => (n, f n))) = l := by
  induction l with
  | nil => rfl
  | cons x xs ih =>
    simp only [keysOf, List.map_cons] at ih ⊢
    rw [ih]

/-! ## The claims -/

/-- C1: for every (dp, tp, pp) topology, saving a model's named state
container `S` with `save_weights` and loading it with `load_weights` into a
freshly initialised model of the same topology (same keys and shapes,
including the zero-entry case) yields a container dict-equal to `S`. -/
theorem save_load_model_roundtrip (topo : Topology) (s dest : NSC)
    (hshapes : shapesOf dest = shapesOf s) (hnodup : (keysOf s).Nodup) :
    ∃ loaded : NSC, loadWeights (saveWeights topo s) topo dest = Except.ok loaded
      ∧ dictEqual loaded s = true :=
  ⟨s, loadWeights_saveWeights topo s dest hshapes hnodup, dictEqual_refl s⟩

/-- Witness for C1 at a concrete topology and container (one two-element
tensor and one zero-length tensor). -/
theorem save_load_model_roundtrip_witness :
    shapesOf [("a", [9, 9]), ("b", [])] = shapesOf [("a", [1, 2]), ("b", [])]
      ∧ (keysOf ([("a", [1, 2]), ("b", [])] : NSC)).Nodup
      ∧ ∃ loaded : NSC,
          loadWeights (saveWeights ⟨2, 1, 1⟩ [("a", [1, 2]), ("b", [])]) ⟨2, 1, 1⟩
              [("a", [9, 9]), ("b", [])] = Except.ok loaded
            ∧ dictEqual loaded [("a", [1, 2]), ("b", [])] = true :=
  ⟨by decide, by decide,
   save_load_model_roundtrip ⟨2, 1, 1⟩ [("a", [1, 2]), ("b", [])]
     [("a", [9, 9]), ("b", [])] (by decide) (by decide)⟩

/-- C4: decoding the encoded string-keyed form of a valid tensor metadata
record gives back an equal record:
`TensorMetadataV2.from_str_dict (m.to_str_dict()) == m`. -/
theorem tensormetadata_codec_roundtrip (m : TensorMetadataV2)
    (h : m.version = CHECKPOINT_VERSION) :
    TensorMetadataV2.fromStrDict m.toStrDict = Except.ok m :=
  fromStrDict_toStrDict m h

/-- Witness for C4: the test's descriptor — a 16×64 tensor split into two
8×64 contiguous chunks along dimension 0, seen from the rank owning the
first chunk. -/
theorem tensormetadata_codec_roundtrip_witness :
    (TensorMetadataV2.mk CHECKPOINT_VERSION
        [⟨[(0, 8), (0, 64)], [(0, 8), (0, 64)]⟩] [16, 64]).version = CHECKPOINT_VERSION
      ∧ TensorMetadataV2.fromStrDict
          (TensorMetadataV2.toStrDict
            (TensorMetadataV2.mk CHECKPOINT_VERSION
              [⟨[(0, 8), (0, 64)], [(0, 8), (0, 64)]⟩] [16, 64]))
          = Except.ok (TensorMetadataV2.mk CHECKPOINT_VERSION
              [⟨[(0, 8), (0, 64)], [(0, 8), (0, 64)]⟩] [16, 64]) :=
  ⟨rfl, tensormetadata_codec_roundtrip _ rfl⟩

/-- C5: the encoding of every tensor metadata record is a flat dictionary
whose keys are the three fixed strings and whose values are all plain
strings (no other dynamic value kind ever occurs). -/
theorem tensormetadata_encoding_all_strings (m : TensorMetadataV2) :
    keysOf m.toStrDict = ["version", "local_global_slices_pairs", "unsharded_shape"]
      ∧ (m.toStrDict).all (fun kv => (kv.2).isStr) = true := by
  constructor
  · simp [TensorMetadataV2.toStrDict, keysOf]
  · simp [TensorMetadataV2.toStrDict, PyVal.isStr]

/-- C9: a load whose current (dp, tp, pp) group sizes differ from the sizes
recorded at save time fails fast with `TopologyMismatch`, uniformly for the
weights, plain-optimizer, wrapped-optimizer and random-state readers; the
check short-circuits the whole load, so no per-tensor work is reached. -/
theorem topology_mismatch_fails_fast (ckW : RankCheckpoint) (ckO : OptCheckpoint)
    (ckA : AccumOptCheckpoint) (ckR : RandomStatesCheckpoint) (topo : Topology)
    (dest : NSC) (odest : OptStateDict) (adest : AccumOptimizer) (r : Nat)
    (hW : ckW.topology ≠ topo) (hO : ckO.topology ≠ topo)
    (hA : ckA.topology ≠ topo) (hR : ckR.topology ≠ topo) :
    loadWeights ckW topo dest = Except.error LoadError.topologyMismatch
    ∧ loadOptimizer ckO topo odest = Except.error LoadError.topologyMismatch
    ∧ loadAccumOptimizer ckA topo adest = Except.error LoadError.topologyMismatch
    ∧ loadRandomStates ckR topo r = Except.error LoadError.topologyMismatch := by
  refine ⟨?_, ?_, ?_, ?_⟩
  · unfold loadWeights
    rw [if_pos hW]
  · unfold loadOptimizer
    rw [if_pos hO]
  · unfold loadAccumOptimizer
    rw [if_pos hA]
  · unfold loadRandomStates
    rw [if_pos hR]

/-- Witness for C9: checkpoints saved under (dp, tp, pp) = (2, 1, 1), loaded
under (1, 1, 1). -/
theorem topology_mismatch_fails_fast_witness :
    ((⟨⟨2, 1, 1⟩, []⟩ : RankCheckpoint).topology ≠ (⟨1, 1, 1⟩ : Topology))
      ∧ loadWeights ⟨⟨2, 1, 1⟩, [("a", [1])]⟩ ⟨1, 1, 1⟩ [("a", [7])]
          = Except.error LoadError.topologyMismatch
      ∧ loadOptimizer ⟨⟨2, 1, 1⟩, [], []⟩ ⟨1, 1, 1⟩ (freshOptimizer [])
          = Except.error LoadError.topologyMismatch
      ∧ loadAccumOptimizer ⟨⟨2, 1, 1⟩, [], [], []⟩ ⟨1, 1, 1⟩ ⟨freshOptimizer [], ⟨[]⟩⟩
          = Except.error LoadError.topologyMismatch
      ∧ loadRandomStates ⟨⟨2, 1, 1⟩, []⟩ ⟨1, 1, 1⟩ 0
          = Except.error LoadError.topologyMismatch :=
  ⟨by decide,
   (topology_mismatch_fails_fast ⟨⟨2, 1, 1⟩, [("a", [1])]⟩ ⟨⟨2, 1, 1⟩, [], []⟩
      ⟨⟨2, 1, 1⟩, [], [], []⟩ ⟨⟨2, 1, 1⟩, []⟩ ⟨1, 1, 1⟩ [("a", [7])]
      (freshOptimizer []) ⟨freshOptimizer [], ⟨[]⟩⟩ 0
      (by decide) (by decide) (by decide) (by decide)).1,
   (topology_mismatch_fails_fast ⟨⟨2, 1, 1⟩, [("a", [1])]⟩ ⟨⟨2, 1, 1⟩, [], []⟩
      ⟨⟨2, 1, 1⟩, [], [], []⟩ ⟨⟨2, 1, 1⟩, []⟩ ⟨1, 1, 1⟩ [("a", [7])]
      (freshOptimizer []) ⟨freshOptimizer [], ⟨[]⟩⟩ 0
      (by decide) (by decide) (by decide) (by decide)).2⟩

/-- C10: saving leaves the live source containers unchanged — after
`save_weights`/`save_optimizer` and a subsequent load into the fresh
instances, the source model and source optimizer are both identical (and so
dict-equal) to their state at the moment save was invoked. -/
theorem save_does_not_mutate_source (topo : Topology) (w : TrainWorld) :
    (loadStep topo (saveStep topo w)).model = w.model
    ∧ dictEqual (loadStep topo (saveStep topo w)).model w.model = true
    ∧ (loadStep topo (saveStep topo w)).optimizer = w.optimizer
    ∧ optDictEqual (loadStep topo (saveStep topo w)).optimizer w.optimizer = true := by
  refine ⟨rfl, ?_, rfl, ?_⟩
  · show dictEqual w.model w.model = true
    exact dictEqual_refl w.model
  · show optDictEqual w.optimizer w.optimizer = true
    exact optDictEqual_refl w.optimizer

/-- C2: after `n ≥ 1` optimizer update steps, `save_optimizer` followed by
`load_optimizer` into a freshly built optimizer of the same kind yields a
state dict dict-equal to the original's, independently for the plain
`NamedOptimizer` and for the ZeRO-sharded optimizer (whose rank-`r` shard of
the parameter names is the deterministic round-robin partition). -/
theorem save_load_optimizer_roundtrip (topo : Topology) (names : List String)
    (grads : String → Value) (n : Nat) (hn : 1 ≤ n) (dpSize r : Nat) :
    (∃ loaded, loadOptimizer (saveOptimizer topo ((optStep grads)^[n] (freshOptimizer names)))
          topo (freshOptimizer names) = Except.ok loaded
        ∧ optDictEqual loaded ((optStep grads)^[n] (freshOptimizer names)) = true)
    ∧ (∃ loadedZ, loadOptimizer (saveOptimizer topo
            ((optStep grads)^[n] (freshOptimizer (zeroShardNames dpSize r names))))
          topo (freshOptimizer (zeroShardNames dpSize r names)) = Except.ok loadedZ
        ∧ optDictEqual loadedZ
            ((optStep grads)^[n] (freshOptimizer (zeroShardNames dpSize r names))) = true) := by
  constructor
  · refine ⟨_, loadOptimizer_saveOptimizer topo _ _ ?_, optDictEqual_refl _⟩
    rw [iterate_optStep_paramNames]
  · refine ⟨_, loadOptimizer_saveOptimizer topo _ _ ?_, optDictEqual_refl _⟩
    rw [iterate_optStep_paramNames]

/-- Witness for C2: two parameters, three update steps, dp group of size 2,
rank 0. -/
theorem save_load_optimizer_roundtrip_witness :
    1 ≤ 3
    ∧ ((∃ loaded, loadOptimizer
            (saveOptimizer ⟨2, 1, 1⟩ ((optStep (fun _ => [1]))^[3] (freshOptimizer ["w", "b"])))
            ⟨2, 1, 1⟩ (freshOptimizer ["w", "b"]) = Except.ok loaded
          ∧ optDictEqual loaded ((optStep (fun _ => [1]))^[3] (freshOptimizer ["w", "b"])) = true)
      ∧ (∃ loadedZ, loadOptimizer
            (saveOptimizer ⟨2, 1, 1⟩
              ((optStep (fun _ => [1]))^[3] (freshOptimizer (zeroShardNames 2 0 ["w", "b"]))))
            ⟨2, 1, 1⟩ (freshOptimizer (zeroShardNames 2 0 ["w", "b"])) = Except.ok loadedZ
          ∧ optDictEqual loadedZ
              ((optStep (fun _ => [1]))^[3] (freshOptimizer (zeroShardNames 2 0 ["w", "b"]))) = true)) :=
  ⟨by decide,
   save_load_optimizer_roundtrip ⟨2, 1, 1⟩ ["w", "b"] (fun _ => [1]) 3 (by decide) 2 0⟩

/-- C3: for the gradient-accumulator-wrapped optimizer, the set of
additional state-dict keys is non-empty, and after `save_optimizer` followed
by `load_optimizer` the primary `state` sub-dict, the full state dict
(additional keys included) and the accumulator's internal per-parameter
buffers are all dict-equal to the originals. -/
theorem accum_optimizer_additional_keys_roundtrip (topo : Topology)
    (names : List String) (grads : String → Value)
    (accum0 : List (String × Value)) (n : Nat) (hn : 1 ≤ n) :
    0 < (stateDictAdditionalKeys
          ((accumStep grads)^[n] ⟨freshOptimizer names, ⟨accum0⟩⟩)).length
    ∧ ∃ loaded, loadAccumOptimizer
          (saveAccumOptimizer topo ((accumStep grads)^[n] ⟨freshOptimizer names, ⟨accum0⟩⟩))
          topo ⟨freshOptimizer names, ⟨accum0⟩⟩ = Except.ok loaded
        ∧ dictEqual loaded.base.state
            ((accumStep grads)^[n] ⟨freshOptimizer names, ⟨accum0⟩⟩).base.state = true
        ∧ dictEqual (fullStateDict loaded)
            (fullStateDict ((accumStep grads)^[n] ⟨freshOptimizer names, ⟨accum0⟩⟩)) = true
        ∧ dictEqual loaded.gradientAccumulator.parameters
            ((accumStep grads)^[n]
              ⟨freshOptimizer names, ⟨accum0⟩⟩).gradientAccumulator.parameters = true := by
  refine ⟨by simp [stateDictAdditionalKeys], ?_⟩
  refine ⟨_, loadAccumOptimizer_saveAccumOptimizer topo _ _ ?_,
    dictEqual_refl _, dictEqual_refl _, dictEqual_refl _⟩
  rw [iterate_accumStep_paramNames]

/-- Witness for C3: one parameter, three update steps. -/
theorem accum_optimizer_additional_keys_roundtrip_witness :
    1 ≤ 3
    ∧ (0 < (stateDictAdditionalKeys
            ((accumStep (fun _ => [2]))^[3] ⟨freshOptimizer ["w"], ⟨[("w", [0])]⟩⟩)).length
      ∧ ∃ loaded, loadAccumOptimizer
            (saveAccumOptimizer ⟨1, 1, 2⟩
              ((accumStep (fun _ => [2]))^[3] ⟨freshOptimizer ["w"], ⟨[("w", [0])]⟩⟩))
            ⟨1, 1, 2⟩ ⟨freshOptimizer ["w"], ⟨[("w", [0])]⟩⟩ = Except.ok loaded
          ∧ dictEqual loaded.base.state
              ((accumStep (fun _ => [2]))^[3]
                ⟨freshOptimizer ["w"], ⟨[("w", [0])]⟩⟩).base.state = true
          ∧ dictEqual (fullStateDict loaded)
              (fullStateDict ((accumStep (fun _ => [2]))^[3]
                ⟨freshOptimizer ["w"], ⟨[("w", [0])]⟩⟩)) = true
          ∧ dictEqual loaded.gradientAccumulator.parameters
              ((accumStep (fun _ => [2]))^[3]
                ⟨freshOptimizer ["w"], ⟨[("w", [0])]⟩⟩).gradientAccumulator.parameters = true) :=
  ⟨by decide,
   accum_optimizer_additional_keys_roundtrip ⟨1, 1, 2⟩ ["w"] (fun _ => [2])
     [("w", [0])] 3 (by decide)⟩

/-- C6: within a process group of size ≥ 2, the synced random state is
value-equal across all members; a collection containing an unsynced local
state differs between a non-reference rank and the reference rank before any
save; and after `save_random_states` followed by `load_random_states`, each
rank's restored collection equals its own pre-save collection. -/
theorem random_state_semantics (current : Nat → RandomState) (group : List Nat)
    (hsize : 2 ≤ group.length) (r1 r2 : Nat) (h1 : r1 ∈ group) (h2 : r2 ∈ group)
    (r : Nat) (hr : r ∈ group)
    (hdiff : current r ≠ current (referenceRank group))
    (topo : Topology) (ranks : List Nat) (hrank : r ∈ ranks) :
    getSyncedRandomState current group r1 = getSyncedRandomState current group r2
    ∧ testRandomStatesFor current group r
        ≠ testRandomStatesFor current group (referenceRank group)
    ∧ loadRandomStates
        (saveRandomStates topo ranks (fun q => testRandomStatesFor current group q)) topo r
      = Except.ok (testRandomStatesFor current group r) := by
  refine ⟨rfl, ?_, loadRandomStates_saveRandomStates topo ranks _ r hrank⟩
  intro hcontra
  apply hdiff
  have hpair : getSyncedRandomState current group r
        = getSyncedRandomState current group (referenceRank group)
      ∧ current r = current (referenceRank group) := by
    simpa [testRandomStatesFor] using hcontra
  exact hpair.2

/-- Witness for C6: a two-member group whose generator states are the rank
numbers, observed from rank 1 (the reference rank is 0). -/
theorem random_state_semantics_witness :
    2 ≤ ([0, 1] : List Nat).length
    ∧ (1 : Nat) ∈ ([0, 1] : List Nat)
    ∧ RandomState.mk [1] ≠ RandomState.mk [0]
    ∧ getSyncedRandomState (fun q => RandomState.mk [q]) [0, 1] 0
        = getSyncedRandomState (fun q => RandomState.mk [q]) [0, 1] 1
    ∧ testRandomStatesFor (fun q => RandomState.mk [q]) [0, 1] 1
        ≠ testRandomStatesFor (fun q => RandomState.mk [q]) [0, 1] (referenceRank [0, 1])
    ∧ loadRandomStates
        (saveRandomStates ⟨1, 2, 1⟩ [0, 1]
          (fun q => testRandomStatesFor (fun p => RandomState.mk [p]) [0, 1] q)) ⟨1, 2, 1⟩ 1
      = Except.ok (testRandomStatesFor (fun q => RandomState.mk [q]) [0, 1] 1) := by
  have h := random_state_semantics (fun q => RandomState.mk [q]) [0, 1]
    (by decide) 0 1 (by decide) (by decide) 1 (by decide) (by decide)
    ⟨1, 2, 1⟩ [0, 1] (by decide)
  exact ⟨by decide, by decide, by decide, h.1, h.2.1, h.2.2⟩

/-- C7: whenever the saved container has at least one entry, a freshly
re-initialised container of the same configuration (an `init_dummy_model`
call at a different generator state, or a freshly built optimizer compared
against an optimizer advanced by `n ≥ 1` steps) is not dict-equal to it
before loading. -/
theorem freshness_precondition (names : List String) (hne : names ≠ [])
    (s1 s2 : Nat) (hs : s2 ≠ s1) (grads : String → Value) (n : Nat) (hn : 1 ≤ n) :
    dictEqual (initDummyModel names s2) (initDummyModel names s1) = false
    ∧ optDictEqual ((optStep grads)^[n] (freshOptimizer names))
        (freshOptimizer names) = false := by
  constructor
  · cases names with
    | nil => exact absurd rfl hne
    | cons n0 rest =>
      have hZ : ((keysOf (initDummyModel (n0 :: rest) s2)).all
          (fun k => decide ((initDummyModel (n0 :: rest) s2).lookup k
            = (initDummyModel (n0 :: rest) s1).lookup k))) = false := by
        rw [List.all_eq_false]
        refine ⟨n0, ?_, ?_⟩
        · rw [initDummyModel, keysOf_initFrom]
          exact List.mem_cons_self _ _
        · intro hdec
          rw [decide_eq_true_eq] at hdec
          simp only [initDummyModel, initFrom, List.lookup, beq_self_eq_true] at hdec
          simp only [drawValue, Option.some.injEq, List.cons.injEq, and_true] at hdec
          omega
      unfold dictEqual
      rw [hZ, Bool.and_false]
  · obtain ⟨m, rfl⟩ : ∃ m, n = m + 1 := ⟨n - 1, by omega⟩
    cases names with
    | nil => exact absurd rfl hne
    | cons n0 rest =>
      rw [Function.iterate_succ_apply']
      have hkeys :
          keysOf (optStep grads ((optStep grads)^[m] (freshOptimizer (n0 :: rest)))).state
            = n0 :: rest := by
        have hp := iterate_optStep_paramNames grads (freshOptimizer (n0 :: rest)) m
        simp only [optStep]
        rw [keysOf_map_pair]
        exact hp
      have hX : ((keysOf
            (optStep grads ((optStep grads)^[m] (freshOptimizer (n0 :: rest)))).state).all
          (fun k => (keysOf (freshOptimizer (n0 :: rest)).state).contains k)) = false := by
        rw [List.all_eq_false]
        refine ⟨n0, ?_, ?_⟩
        · rw [hkeys]
          exact List.mem_cons_self _ _
        · simp [freshOptimizer, keysOf]
      unfold optDictEqual dictEqual
      rw [hX]
      simp

/-- Witness for C7: one parameter, generator states 1 vs 0, one update
step. -/
theorem freshness_precondition_witness :
    (["p"] : List String) ≠ []
    ∧ (1 : Nat) ≠ 0
    ∧ 1 ≤ 1
    ∧ dictEqual (initDummyModel ["p"] 1) (initDummyModel ["p"] 0) = false
    ∧ optDictEqual ((optStep (fun _ => [1]))^[1] (freshOptimizer ["p"]))
        (freshOptimizer ["p"]) = false :=
  ⟨by decide, by decide, by decide,
   (freshness_precondition ["p"] (by decide) 0 1 (by decide) (fun _ => [1]) 1 (by decide)).1,
   (freshness_precondition ["p"] (by decide) 0 1 (by decide) (fun _ => [1]) 1 (by decide)).2⟩

/-- C8: a model or optimizer with zero persisted entries saves and loads as
a valid empty checkpoint without error, and the pre-load "should differ"
sanity comparison is skipped exactly when both containers (the saved one and
the freshly initialised one of the same configuration) have zero entries. -/
theorem empty_container_edge_case (topo : Topology) (s dest : NSC)
    (hshapes : shapesOf dest = shapesOf s) (names : List String) :
    loadWeights (saveWeights topo ([] : NSC)) topo ([] : NSC) = Except.ok []
    ∧ loadOptimizer (saveOptimizer topo (freshOptimizer names)) topo (freshOptimizer names)
        = Except.ok (freshOptimizer names)
    ∧ (skipModelFreshnessGuard s = true ↔ (s.length = 0 ∧ dest.length = 0))
    ∧ (∀ o : OptStateDict, skipOptimFreshnessGuard o = true
        ↔ (o.state.length = 0 ∧ (freshOptimizer names).state.length = 0)) := by
  have hlen : dest.length = s.length := by
    have h := congrArg List.length hshapes
    simpa [shapesOf] using h
  refine ⟨loadWeights_saveWeights topo [] [] rfl List.nodup_nil,
          loadOptimizer_saveOptimizer topo (freshOptimizer names) (freshOptimizer names) rfl,
          ?_, ?_⟩
  · constructor
    · intro h
      have hs : s.length = 0 := by simpa [skipModelFreshnessGuard] using h
      exact ⟨hs, by omega⟩
    · intro h
      simp [skipModelFreshnessGuard, h.1]
  · intro o
    constructor
    · intro h
      exact ⟨by simpa [skipOptimFreshnessGuard] using h, rfl⟩
    · intro h
      simp [skipOptimFreshnessGuard, h.1]

/-- Witness for C8: a nonempty saved container and a fresh container of the
same single-parameter configuration. -/
theorem empty_container_edge_case_witness :
    shapesOf [("a", [2])] = shapesOf [("a", [1])]
    ∧ (loadWeights (saveWeights ⟨1, 1, 1⟩ ([] : NSC)) ⟨1, 1, 1⟩ ([] : NSC) = Except.ok []
      ∧ loadOptimizer (saveOptimizer ⟨1, 1, 1⟩ (freshOptimizer ["w"])) ⟨1, 1, 1⟩
          (freshOptimizer ["w"]) = Except.ok (freshOptimizer ["w"])
      ∧ (skipModelFreshnessGuard [("a", [1])] = true
          ↔ (([("a", [1])] : NSC).length = 0 ∧ ([("a", [2])] : NSC).length = 0))
      ∧ (∀ o : OptStateDict, skipOptimFreshnessGuard o = true
          ↔ (o.state.length = 0 ∧ (freshOptimizer ["w"]).state.length = 0))) :=
  ⟨by decide,
   empty_container_edge_case ⟨1, 1, 1⟩ [("a", [1])] [("a", [2])] (by decide) ["w"]⟩

end Nanotron
